import Mathlib

/-!
Verification of the Discover (stop-insertion / route-augmentation) subsystem of the
daily-dally trip planner.

The geometry comes from `src/lib/discover.ts` (haversine distance and the
best-insertion-point solver) and the aggregation / ranking / streaming pipeline from
`src/app/api/trips/[tripId]/discover/route.ts`.  IEEE doubles are modelled by real
numbers; `Number.POSITIVE_INFINITY` initialisers are modelled by `Option ℝ` with
`none` standing for the infinite initial value.
-/

namespace DailyDally

/-- Geographic coordinates (`{ lat, lng }` from `src/types/trip`), over ℝ. -/
structure Coordinates where
  lat : ℝ
  lng : ℝ

/-- Degrees to radians, the `toRad` helper inside `haversineKm`. -/
noncomputable def toRad (deg : ℝ) : ℝ := deg * Real.pi / 180

/-- JavaScript `Math.atan2 y x` (signed-zero behaviour ignored: the code only
calls it on non-negative square roots). -/
noncomputable def atan2 (y x : ℝ) : ℝ :=
  if 0 < x then Real.arctan (y / x)
  else if x < 0 then
    (if 0 ≤ y then Real.arctan (y / x) + Real.pi else Real.arctan (y / x) - Real.pi)
  else if 0 < y then Real.pi / 2
  else if y < 0 then -(Real.pi / 2)
  else 0

/-- The haversine quantity `h` computed inside `haversineKm`
(`sinDLat * sinDLat + cos lat1 * cos lat2 * sinDLng * sinDLng`). -/
noncomputable def hav (a b : Coordinates) : ℝ :=
  Real.sin (toRad (b.lat - a.lat) / 2) * Real.sin (toRad (b.lat - a.lat) / 2) +
    Real.cos (toRad a.lat) * Real.cos (toRad b.lat) *
      Real.sin (toRad (b.lng - a.lng) / 2) * Real.sin (toRad (b.lng - a.lng) / 2)

/-- `haversineKm` from `src/lib/discover.ts`: great-circle distance in km with
mean Earth radius 6371 km. -/
noncomputable def haversineKm (a b : Coordinates) : ℝ :=
  6371 * (2 * atan2 (Real.sqrt (hav a b)) (Real.sqrt (1 - hav a b)))

lemma hav_comm (a b : Coordinates) : hav a b = hav b a := by
  unfold hav toRad
  rw [show (a.lat - b.lat) * Real.pi / 180 / 2 = -((b.lat - a.lat) * Real.pi / 180 / 2) by ring,
      show (a.lng - b.lng) * Real.pi / 180 / 2 = -((b.lng - a.lng) * Real.pi / 180 / 2) by ring,
      Real.sin_neg, Real.sin_neg]
  ring

lemma haversineKm_comm (a b : Coordinates) : haversineKm a b = haversineKm b a := by
  unfold haversineKm
  rw [hav_comm]

lemma hav_self (a : Coordinates) : hav a a = 0 := by
  unfold hav toRad
  simp

lemma haversineKm_self (a : Coordinates) : haversineKm a a = 0 := by
  unfold haversineKm atan2
  rw [hav_self]
  norm_num [Real.sqrt_one]

lemma arctan_nonneg_of_nonneg {t : ℝ} (ht : 0 ≤ t) : 0 ≤ Real.arctan t := by
  have h := Real.arctan_strictMono.monotone ht
  rwa [Real.arctan_zero] at h

lemma atan2_nonneg {y x : ℝ} (hy : 0 ≤ y) : 0 ≤ atan2 y x := by
  unfold atan2
  have hpi := Real.pi_pos
  split_ifs with h1 h2 h3 h4
  · exact arctan_nonneg_of_nonneg (div_nonneg hy h1.le)
  · linarith [Real.neg_pi_div_two_lt_arctan (y / x)]
  · linarith
  · exact absurd h4 (not_lt.mpr hy)
  · exact le_refl 0

lemma haversineKm_nonneg (a b : Coordinates) : 0 ≤ haversineKm a b := by
  unfold haversineKm
  have h : 0 ≤ atan2 (Real.sqrt (hav a b)) (Real.sqrt (1 - hav a b)) :=
    atan2_nonneg (Real.sqrt_nonneg (hav a b))
  linarith

/-- Euclidean dot product on ℝ³ (used only to relate the haversine formula to the
central angle between points on the unit sphere). -/
def dot3 (u v : ℝ × ℝ × ℝ) : ℝ := u.1 * v.1 + u.2.1 * v.2.1 + u.2.2 * v.2.2

/-- Unit vector on the sphere for a coordinate (standard geographic embedding). -/
noncomputable def nvec (c : Coordinates) : ℝ × ℝ × ℝ :=
  (Real.cos (toRad c.lat) * Real.cos (toRad c.lng),
   Real.cos (toRad c.lat) * Real.sin (toRad c.lng),
   Real.sin (toRad c.lat))

lemma dot3_self_nvec (c : Coordinates) : dot3 (nvec c) (nvec c) = 1 := by
  have h1 := Real.sin_sq_add_cos_sq (toRad c.lat)
  have h2 := Real.sin_sq_add_cos_sq (toRad c.lng)
  simp only [dot3, nvec]
  linear_combination (Real.cos (toRad c.lat)) ^ 2 * h2 + h1

lemma two_sin_sq_half (x : ℝ) : 2 * (Real.sin (x / 2) * Real.sin (x / 2)) = 1 - Real.cos x := by
  have h := Real.cos_two_mul' (x / 2)
  rw [show 2 * (x / 2) = x by ring] at h
  have h2 := Real.sin_sq_add_cos_sq (x / 2)
  nlinarith [h, h2]

lemma dot3_nvec (a b : Coordinates) : dot3 (nvec a) (nvec b) = 1 - 2 * hav a b := by
  have e1 := two_sin_sq_half (toRad (b.lat - a.lat))
  have e2 := two_sin_sq_half (toRad (b.lng - a.lng))
  have c1 : Real.cos (toRad (b.lat - a.lat)) =
      Real.cos (toRad b.lat) * Real.cos (toRad a.lat) +
        Real.sin (toRad b.lat) * Real.sin (toRad a.lat) := by
    rw [show toRad (b.lat - a.lat) = toRad b.lat - toRad a.lat by unfold toRad; ring,
        Real.cos_sub]
  have c2 : Real.cos (toRad (b.lng - a.lng)) =
      Real.cos (toRad b.lng) * Real.cos (toRad a.lng) +
        Real.sin (toRad b.lng) * Real.sin (toRad a.lng) := by
    rw [show toRad (b.lng - a.lng) = toRad b.lng - toRad a.lng by unfold toRad; ring,
        Real.cos_sub]
  simp only [dot3, nvec, hav]
  linear_combination e1 + (Real.cos (toRad a.lat) * Real.cos (toRad b.lat)) * e2 - c1 -
    (Real.cos (toRad a.lat) * Real.cos (toRad b.lat)) * c2

/-- Cauchy–Schwarz for the explicit 3D dot product, via the Lagrange identity. -/
lemma dot3_sq_le (u v : ℝ × ℝ × ℝ) : dot3 u v ^ 2 ≤ dot3 u u * dot3 v v := by
  simp only [dot3]
  nlinarith [sq_nonneg (u.1 * v.2.1 - u.2.1 * v.1), sq_nonneg (u.1 * v.2.2 - u.2.2 * v.1),
    sq_nonneg (u.2.1 * v.2.2 - u.2.2 * v.2.1)]

lemma dot3_mem_Icc {u v : ℝ × ℝ × ℝ} (hu : dot3 u u = 1) (hv : dot3 v v = 1) :
    -1 ≤ dot3 u v ∧ dot3 u v ≤ 1 := by
  have h := dot3_sq_le u v
  rw [hu, hv, mul_one] at h
  constructor <;> nlinarith [h]

lemma sum3_sq_le (a1 a2 a3 b1 b2 b3 : ℝ) :
    (a1 * b1 + a2 * b2 + a3 * b3) ^ 2 ≤
      (a1 * a1 + a2 * a2 + a3 * a3) * (b1 * b1 + b2 * b2 + b3 * b3) := by
  nlinarith [sq_nonneg (a1 * b2 - a2 * b1), sq_nonneg (a1 * b3 - a3 * b1),
    sq_nonneg (a2 * b3 - a3 * b2)]

lemma decomp_sq_le_scalar (u1 u2 u3 v1 v2 v3 w1 w2 w3 : ℝ)
    (hu : u1 * u1 + u2 * u2 + u3 * u3 = 1) (hv : v1 * v1 + v2 * v2 + v3 * v3 = 1)
    (hw : w1 * w1 + w2 * w2 + w3 * w3 = 1) :
    ((u1 * w1 + u2 * w2 + u3 * w3) -
        (u1 * v1 + u2 * v2 + u3 * v3) * (v1 * w1 + v2 * w2 + v3 * w3)) ^ 2 ≤
      (1 - (u1 * v1 + u2 * v2 + u3 * v3) ^ 2) * (1 - (v1 * w1 + v2 * w2 + v3 * w3) ^ 2) := by
  set P := u1 * v1 + u2 * v2 + u3 * v3 with hP
  set Q := v1 * w1 + v2 * w2 + v3 * w3 with hQ
  set R := u1 * w1 + u2 * w2 + u3 * w3 with hR
  have hCS := sum3_sq_le (u1 - P * v1) (u2 - P * v2) (u3 - P * v3)
    (w1 - Q * v1) (w2 - Q * v2) (w3 - Q * v3)
  have hA : (u1 - P * v1) * (u1 - P * v1) + (u2 - P * v2) * (u2 - P * v2) +
      (u3 - P * v3) * (u3 - P * v3) = 1 - P ^ 2 := by
    linear_combination hu + P ^ 2 * hv + 2 * P * hP
  have hB : (w1 - Q * v1) * (w1 - Q * v1) + (w2 - Q * v2) * (w2 - Q * v2) +
      (w3 - Q * v3) * (w3 - Q * v3) = 1 - Q ^ 2 := by
    linear_combination hw + Q ^ 2 * hv + 2 * Q * hQ
  have hD : (u1 - P * v1) * (w1 - Q * v1) + (u2 - P * v2) * (w2 - Q * v2) +
      (u3 - P * v3) * (w3 - Q * v3) = R - P * Q := by
    linear_combination (-1 : ℝ) * hR + Q * hP + P * hQ + P * Q * hv
  have h1 : ((u1 - P * v1) * (w1 - Q * v1) + (u2 - P * v2) * (w2 - Q * v2) +
      (u3 - P * v3) * (w3 - Q * v3)) ^ 2 = (R - P * Q) ^ 2 := by rw [hD]
  have h2 : ((u1 - P * v1) * (u1 - P * v1) + (u2 - P * v2) * (u2 - P * v2) +
        (u3 - P * v3) * (u3 - P * v3)) *
      ((w1 - Q * v1) * (w1 - Q * v1) + (w2 - Q * v2) * (w2 - Q * v2) +
        (w3 - Q * v3) * (w3 - Q * v3)) = (1 - P ^ 2) * (1 - Q ^ 2) := by rw [hA, hB]
  linarith [hCS, h1.symm.trans_le (h2 ▸ hCS)]

/-- Key inequality behind the spherical triangle inequality: for unit vectors,
the inner product of `u` and `w` differs from the product of their inner products
with `v` by at most the product of the orthogonal-component norms. -/
lemma dot3_decomp_sq_le {u v w : ℝ × ℝ × ℝ} (hu : dot3 u u = 1) (hv : dot3 v v = 1)
    (hw : dot3 w w = 1) :
    (dot3 u w - dot3 u v * dot3 v w) ^ 2 ≤ (1 - dot3 u v ^ 2) * (1 - dot3 v w ^ 2) := by
  obtain ⟨u1, u2, u3⟩ := u
  obtain ⟨v1, v2, v3⟩ := v
  obtain ⟨w1, w2, w3⟩ := w
  exact decomp_sq_le_scalar u1 u2 u3 v1 v2 v3 w1 w2 w3 hu hv hw

/-- Triangle inequality for central angles of unit vectors in ℝ³. -/
lemma arccos_dot3_triangle {u v w : ℝ × ℝ × ℝ} (hu : dot3 u u = 1) (hv : dot3 v v = 1)
    (hw : dot3 w w = 1) :
    Real.arccos (dot3 u w) ≤ Real.arccos (dot3 u v) + Real.arccos (dot3 v w) := by
  obtain ⟨hp1, hp2⟩ := dot3_mem_Icc hu hv
  obtain ⟨hq1, hq2⟩ := dot3_mem_Icc hv hw
  obtain ⟨hr1, hr2⟩ := dot3_mem_Icc hu hw
  by_cases hpi : Real.pi ≤ Real.arccos (dot3 u v) + Real.arccos (dot3 v w)
  · exact le_trans (Real.arccos_le_pi (dot3 u w)) hpi
  · push_neg at hpi
    have h0 : 0 ≤ Real.arccos (dot3 u v) + Real.arccos (dot3 v w) :=
      add_nonneg (Real.arccos_nonneg _) (Real.arccos_nonneg _)
    have hcos : Real.cos (Real.arccos (dot3 u v) + Real.arccos (dot3 v w)) =
        dot3 u v * dot3 v w -
          Real.sqrt (1 - dot3 u v ^ 2) * Real.sqrt (1 - dot3 v w ^ 2) := by
      rw [Real.cos_add, Real.cos_arccos hp1 hp2, Real.cos_arccos hq1 hq2,
        Real.sin_arccos, Real.sin_arccos]
    have hkey := dot3_decomp_sq_le hu hv hw
    have hps : (0 : ℝ) ≤ 1 - dot3 u v ^ 2 := by nlinarith [hp1, hp2]
    have hqs : (0 : ℝ) ≤ 1 - dot3 v w ^ 2 := by nlinarith [hq1, hq2]
    have habs : |dot3 u w - dot3 u v * dot3 v w| ≤
        Real.sqrt (1 - dot3 u v ^ 2) * Real.sqrt (1 - dot3 v w ^ 2) := by
      rw [← Real.sqrt_sq_eq_abs, ← Real.sqrt_mul hps]
      exact Real.sqrt_le_sqrt hkey
    have hge : Real.cos (Real.arccos (dot3 u v) + Real.arccos (dot3 v w)) ≤ dot3 u w := by
      rw [hcos]
      have h1 := (abs_le.mp habs).1
      linarith
    have hmem1 : Real.cos (Real.arccos (dot3 u v) + Real.arccos (dot3 v w)) ∈
        Set.Icc (-1 : ℝ) 1 := ⟨Real.neg_one_le_cos _, Real.cos_le_one _⟩
    have hmem2 : dot3 u w ∈ Set.Icc (-1 : ℝ) 1 := ⟨hr1, hr2⟩
    have hanti := Real.strictAntiOn_arccos.le_iff_le hmem2 hmem1
    have hstep : Real.arccos (dot3 u w) ≤
        Real.arccos (Real.cos (Real.arccos (dot3 u v) + Real.arccos (dot3 v w))) := by
      exact hanti.mpr hge
    rwa [Real.arccos_cos h0 hpi.le] at hstep

/-- Latitude validity of a geographic coordinate (degrees in [-90, 90]). -/
def ValidLat (c : Coordinates) : Prop := |c.lat| ≤ 90

lemma toRad_mem {c : Coordinates} (hc : ValidLat c) :
    -(Real.pi / 2) ≤ toRad c.lat ∧ toRad c.lat ≤ Real.pi / 2 := by
  have hpi := Real.pi_pos
  obtain ⟨h1, h2⟩ := abs_le.mp hc
  unfold toRad
  constructor <;> nlinarith

lemma cos_toRad_nonneg {c : Coordinates} (hc : ValidLat c) : 0 ≤ Real.cos (toRad c.lat) := by
  obtain ⟨h1, h2⟩ := toRad_mem hc
  exact Real.cos_nonneg_of_neg_pi_div_two_le_of_le h1 h2

lemma hav_nonneg {a b : Coordinates} (ha : ValidLat a) (hb : ValidLat b) : 0 ≤ hav a b := by
  unfold hav
  have h1 := mul_self_nonneg (Real.sin (toRad (b.lat - a.lat) / 2))
  have h2 := mul_self_nonneg (Real.sin (toRad (b.lng - a.lng) / 2))
  have h3 := cos_toRad_nonneg ha
  have h4 := cos_toRad_nonneg hb
  nlinarith [mul_nonneg (mul_nonneg h3 h4) h2, h1]

lemma hav_le_one (a b : Coordinates) : hav a b ≤ 1 := by
  have hd := dot3_nvec a b
  have hm := dot3_mem_Icc (dot3_self_nvec a) (dot3_self_nvec b)
  linarith [hm.1]

lemma two_atan2_sqrt (h : ℝ) (h0 : 0 ≤ h) (h1 : h ≤ 1) :
    2 * atan2 (Real.sqrt h) (Real.sqrt (1 - h)) = Real.arccos (1 - 2 * h) := by
  rcases lt_or_eq_of_le h1 with hlt | heq
  · have hx : 0 < Real.sqrt (1 - h) := Real.sqrt_pos.mpr (by linarith)
    unfold atan2
    rw [if_pos hx]
    set t := Real.arcsin (Real.sqrt h) with ht
    have hsh1 : Real.sqrt h ≤ 1 := by
      rw [show (1 : ℝ) = Real.sqrt 1 by rw [Real.sqrt_one]]
      exact Real.sqrt_le_sqrt h1
    have hshlt : Real.sqrt h < 1 := by
      have hs := Real.sqrt_lt_sqrt h0 hlt
      rwa [Real.sqrt_one] at hs
    have ht0 : 0 ≤ t := Real.arcsin_nonneg.mpr (Real.sqrt_nonneg h)
    have htlt : t < Real.pi / 2 := Real.arcsin_lt_pi_div_two.mpr hshlt
    have hsint : Real.sin t = Real.sqrt h :=
      Real.sin_arcsin (le_trans (by norm_num) (Real.sqrt_nonneg h)) hsh1
    have hcost : Real.cos t = Real.sqrt (1 - h) := by
      rw [ht, Real.cos_arcsin]
      rw [Real.sq_sqrt h0]
    have harctan : Real.arctan (Real.sqrt h / Real.sqrt (1 - h)) = t := by
      rw [show Real.sqrt h / Real.sqrt (1 - h) = Real.tan t by
        rw [Real.tan_eq_sin_div_cos, hsint, hcost]]
      exact Real.arctan_tan (by linarith [Real.pi_pos]) htlt
    rw [harctan]
    have hcos2t : Real.cos (2 * t) = 1 - 2 * h := by
      rw [Real.cos_two_mul', hsint, hcost, Real.sq_sqrt h0,
        Real.sq_sqrt (by linarith : (0 : ℝ) ≤ 1 - h)]
      ring
    rw [← hcos2t, Real.arccos_cos (by linarith) (by linarith)]
  · subst heq
    rw [show (1 : ℝ) - 1 = 0 by ring, Real.sqrt_zero, Real.sqrt_one,
      show (1 : ℝ) - 2 * 1 = -1 by ring, Real.arccos_neg_one]
    unfold atan2
    norm_num
    ring

lemma haversineKm_eq_arccos {a b : Coordinates} (ha : ValidLat a) (hb : ValidLat b) :
    haversineKm a b = 6371 * Real.arccos (dot3 (nvec a) (nvec b)) := by
  unfold haversineKm
  rw [two_atan2_sqrt (hav a b) (hav_nonneg ha hb) (hav_le_one a b), dot3_nvec]

/-- Triangle inequality for the haversine great-circle distance (valid latitudes). -/
lemma haversineKm_triangle {a b c : Coordinates} (ha : ValidLat a) (hb : ValidLat b)
    (hc : ValidLat c) : haversineKm a b ≤ haversineKm a c + haversineKm c b := by
  rw [haversineKm_eq_arccos ha hb, haversineKm_eq_arccos ha hc, haversineKm_eq_arccos hc hb]
  have h := arccos_dot3_triangle (dot3_self_nvec a) (dot3_self_nvec c) (dot3_self_nvec b)
  linarith

/-- An anchor: a stop id together with its valid location (the projection the
route handler builds before calling the solver). -/
structure Anchor where
  destinationId : String
  location : Coordinates

/-- The `delta` computed for an adjacent anchor pair inside the solver loop:
`dist(a, cand) + dist(cand, b) - dist(a, b)`. -/
noncomputable def deltaKm (cand : Coordinates) (p : Anchor × Anchor) : ℝ :=
  haversineKm p.1.location cand + haversineKm cand p.2.location -
    haversineKm p.1.location p.2.location

/-- One iteration of the solver loop.  The running best detour is an `Option ℝ`
where `none` models the `Number.POSITIVE_INFINITY` initialiser (any real delta
compares strictly below it). -/
noncomputable def insertStep (cand : Coordinates) (best : String × Option ℝ)
    (p : Anchor × Anchor) : String × Option ℝ :=
  match best.2 with
  | none => (p.1.destinationId, some (deltaKm cand p))
  | some d => if deltaKm cand p < d then (p.1.destinationId, some (deltaKm cand p)) else best

/-- `bestInsertAfterDestinationIdForCandidate` from `src/lib/discover.ts`.
Empty anchor list throws in the source; modelled as `none`. -/
noncomputable def bestInsertAfterDestinationIdForCandidate (anchors : List Anchor)
    (candidateLocation : Coordinates) : Option (String × ℝ) :=
  match anchors with
  | [] => none
  | [a] => some (a.destinationId, haversineKm a.location candidateLocation)
  | a0 :: a1 :: rest =>
    let pairs := (a0 :: a1 :: rest).zip (a1 :: rest)
    let r := pairs.foldl (insertStep candidateLocation) (a0.destinationId, (none : Option ℝ))
    r.2.map (fun d => (r.1, d))

/-- Specification of the solver result on a pair list: the detour is the delta of
pair `i`, every pair's delta is at least it, and every earlier pair's delta is
strictly greater (so `i` is the first pair attaining the minimum). -/
def IsBestPair (cand : Coordinates) (ps : List (Anchor × Anchor)) (id : String) (d : ℝ) : Prop :=
  ∃ i : ℕ, ∃ hi : i < ps.length,
    d = deltaKm cand (ps.get ⟨i, hi⟩) ∧ id = (ps.get ⟨i, hi⟩).1.destinationId ∧
    (∀ j : ℕ, ∀ hj : j < ps.length, d ≤ deltaKm cand (ps.get ⟨j, hj⟩)) ∧
    (∀ j : ℕ, ∀ hj : j < ps.length, j < i → d < deltaKm cand (ps.get ⟨j, hj⟩))

lemma foldl_insertStep_some (cand : Coordinates) (ps : List (Anchor × Anchor)) :
    ∀ s : String, ∀ m : ℝ,
      (∃ r' : ℝ, (ps.foldl (insertStep cand) (s, some m)).2 = some r') ∧
      (((ps.foldl (insertStep cand) (s, some m)) = (s, some m) ∧
          ∀ j : ℕ, ∀ hj : j < ps.length, m ≤ deltaKm cand (ps.get ⟨j, hj⟩)) ∨
        (∃ i : ℕ, ∃ hi : i < ps.length,
          (ps.foldl (insertStep cand) (s, some m)) =
            ((ps.get ⟨i, hi⟩).1.destinationId, some (deltaKm cand (ps.get ⟨i, hi⟩))) ∧
          deltaKm cand (ps.get ⟨i, hi⟩) < m ∧
          (∀ j : ℕ, ∀ hj : j < ps.length,
            deltaKm cand (ps.get ⟨i, hi⟩) ≤ deltaKm cand (ps.get ⟨j, hj⟩)) ∧
          (∀ j : ℕ, ∀ hj : j < ps.length, j < i →
            deltaKm cand (ps.get ⟨i, hi⟩) < deltaKm cand (ps.get ⟨j, hj⟩)))) := by
  induction ps with
  | nil =>
    intro s m
    refine ⟨⟨m, rfl⟩, Or.inl ⟨rfl, ?_⟩⟩
    intro j hj
    exact absurd hj (Nat.not_lt_zero j)
  | cons p rest ih =>
    intro s m
    by_cases hlt : deltaKm cand p < m
    · have hstep : insertStep cand (s, some m) p = (p.1.destinationId, some (deltaKm cand p)) := by
        unfold insertStep
        simp [hlt]
      rw [List.foldl_cons, hstep]
      obtain ⟨hex, hcase⟩ := ih p.1.destinationId (deltaKm cand p)
      refine ⟨hex, Or.inr ?_⟩
      rcases hcase with ⟨heq, hall⟩ | ⟨i, hi, heq, hless, hall, hfirst⟩
      · refine ⟨0, Nat.succ_pos _, ?_, hlt, ?_, ?_⟩
        · simpa using heq
        · intro j hj
          cases j with
          | zero => simp
          | succ k =>
            have hk : k < rest.length := Nat.lt_of_succ_lt_succ hj
            simpa using hall k hk
        · intro j hj hj0
          exact absurd hj0 (Nat.not_lt_zero j)
      · refine ⟨i + 1, Nat.succ_lt_succ hi, by simpa using heq, lt_trans hless hlt, ?_, ?_⟩
        · intro j hj
          cases j with
          | zero =>
            simpa using le_of_lt hless
          | succ k =>
            have hk : k < rest.length := Nat.lt_of_succ_lt_succ hj
            simpa using hall k hk
        · intro j hj hji
          cases j with
          | zero => simpa using hless
          | succ k =>
            have hk : k < rest.length := Nat.lt_of_succ_lt_succ hj
            have hki : k < i := Nat.lt_of_succ_lt_succ hji
            simpa using hfirst k hk hki
    · have hstep : insertStep cand (s, some m) p = (s, some m) := by
        unfold insertStep
        simp [hlt]
      rw [List.foldl_cons, hstep]
      obtain ⟨hex, hcase⟩ := ih s m
      refine ⟨hex, ?_⟩
      rcases hcase with ⟨heq, hall⟩ | ⟨i, hi, heq, hless, hall, hfirst⟩
      · refine Or.inl ⟨heq, ?_⟩
        intro j hj
        cases j with
        | zero => simpa using le_of_not_lt hlt
        | succ k =>
          have hk : k < rest.length := Nat.lt_of_succ_lt_succ hj
          simpa using hall k hk
      · refine Or.inr ⟨i + 1, Nat.succ_lt_succ hi, by simpa using heq, ?_, ?_, ?_⟩
        · simpa using hless
        · intro j hj
          cases j with
          | zero =>
            have : deltaKm cand (rest.get ⟨i, hi⟩) < m := hless
            simpa using le_trans this.le (le_of_not_lt hlt)
          | succ k =>
            have hk : k < rest.length := Nat.lt_of_succ_lt_succ hj
            simpa using hall k hk
        · intro j hj hji
          cases j with
          | zero =>
            have h1 : deltaKm cand (rest.get ⟨i, hi⟩) < m := hless
            have h2 : m ≤ deltaKm cand p := le_of_not_lt hlt
            simpa using lt_of_lt_of_le h1 h2
          | succ k =>
            have hk : k < rest.length := Nat.lt_of_succ_lt_succ hj
            have hki : k < i := Nat.lt_of_succ_lt_succ hji
            simpa using hfirst k hk hki

lemma foldl_insertStep_none (cand : Coordinates) (p : Anchor × Anchor)
    (rest : List (Anchor × Anchor)) (s : String) :
    ∃ id : String, ∃ d : ℝ,
      ((p :: rest).foldl (insertStep cand) (s, (none : Option ℝ))) = (id, some d) ∧
        IsBestPair cand (p :: rest) id d := by
  have hstep : insertStep cand (s, (none : Option ℝ)) p =
      (p.1.destinationId, some (deltaKm cand p)) := rfl
  rw [List.foldl_cons, hstep]
  obtain ⟨⟨r', hr'⟩, hcase⟩ := foldl_insertStep_some cand rest p.1.destinationId (deltaKm cand p)
  rcases hcase with ⟨heq, hall⟩ | ⟨i, hi, heq, hless, hall, hfirst⟩
  · refine ⟨p.1.destinationId, deltaKm cand p, heq, 0, Nat.succ_pos _, by simp, by simp, ?_, ?_⟩
    · intro j hj
      cases j with
      | zero => simp
      | succ k =>
        have hk : k < rest.length := Nat.lt_of_succ_lt_succ hj
        simpa using hall k hk
    · intro j hj hj0
      exact absurd hj0 (Nat.not_lt_zero j)
  · refine ⟨(rest.get ⟨i, hi⟩).1.destinationId, deltaKm cand (rest.get ⟨i, hi⟩), heq,
      i + 1, Nat.succ_lt_succ hi, by simp, by simp, ?_, ?_⟩
    · intro j hj
      cases j with
      | zero => simpa using le_of_lt hless
      | succ k =>
        have hk : k < rest.length := Nat.lt_of_succ_lt_succ hj
        simpa using hall k hk
    · intro j hj hji
      cases j with
      | zero => simpa using hless
      | succ k =>
        have hk : k < rest.length := Nat.lt_of_succ_lt_succ hj
        have hki : k < i := Nat.lt_of_succ_lt_succ hji
        simpa using hfirst k hk hki

lemma deltaKm_nonneg {cand : Coordinates} {p : Anchor × Anchor} (h1 : ValidLat p.1.location)
    (h2 : ValidLat p.2.location) (hc : ValidLat cand) : 0 ≤ deltaKm cand p := by
  unfold deltaKm
  have h := haversineKm_triangle h1 h2 hc
  linarith

lemma zip_tail_map_fst : (l : List Anchor) → (l.zip l.tail).map Prod.fst = l.dropLast
  | [] => by simp
  | [_] => by simp
  | a :: b :: t => by
    have ih := zip_tail_map_fst (b :: t)
    simp only [List.tail_cons, List.zip_cons_cons, List.map_cons] at ih ⊢
    rw [ih]
    rfl

/-- Claim C1: for an anchor list of size at least two, the solver returns the
minimum over all adjacent anchor pairs of
`dist(a, cand) + dist(cand, b) - dist(a, b)`, the insertion id is the first
pair's `a` attaining that minimum (strict-improvement tie break), and the
minimum is non-negative whenever all latitudes are geographically valid. -/
theorem best_insert_min_detour (anchors : List Anchor) (cand : Coordinates)
    (hlen : 2 ≤ anchors.length) :
    ∃ id : String, ∃ d : ℝ,
      bestInsertAfterDestinationIdForCandidate anchors cand = some (id, d) ∧
        IsBestPair cand (anchors.zip anchors.tail) id d ∧
        ((∀ a ∈ anchors, ValidLat a.location) → ValidLat cand → 0 ≤ d) := by
  match anchors with
  | [] => exact absurd hlen (by norm_num)
  | [a] => exact absurd hlen (by norm_num)
  | a0 :: a1 :: rest =>
    obtain ⟨id, d, heq, hbest⟩ :=
      foldl_insertStep_none cand (a0, a1) ((a1 :: rest).zip rest) a0.destinationId
    refine ⟨id, d, ?_, hbest, ?_⟩
    · show ((((a0, a1) :: (a1 :: rest).zip rest).foldl (insertStep cand)
            (a0.destinationId, (none : Option ℝ))).2).map
          (fun dd => ((((a0, a1) :: (a1 :: rest).zip rest).foldl (insertStep cand)
            (a0.destinationId, (none : Option ℝ))).1, dd)) = some (id, d)
      rw [heq]
      rfl
    · intro hval hc
      obtain ⟨i, hi, hd, _, _, _⟩ := hbest
      rw [hd]
      have hpmem := List.get_mem ((a0 :: a1 :: rest).zip (a1 :: rest)) i hi
      have hz := List.of_mem_zip hpmem
      exact deltaKm_nonneg (hval _ hz.1) (hval _ (List.mem_cons_of_mem a0 hz.2)) hc

/-- Witness for C1 at a concrete two-anchor route. -/
theorem best_insert_min_detour_witness :
    ∃ id : String, ∃ d : ℝ,
      bestInsertAfterDestinationIdForCandidate
          [⟨"a", ⟨0, 0⟩⟩, ⟨"b", ⟨0, 1⟩⟩] ⟨0, 2⟩ = some (id, d) ∧
        IsBestPair ⟨0, 2⟩
          (([⟨"a", ⟨0, 0⟩⟩, ⟨"b", ⟨0, 1⟩⟩] : List Anchor).zip
            ([⟨"a", ⟨0, 0⟩⟩, ⟨"b", ⟨0, 1⟩⟩] : List Anchor).tail) id d ∧
        ((∀ a ∈ ([⟨"a", ⟨0, 0⟩⟩, ⟨"b", ⟨0, 1⟩⟩] : List Anchor), ValidLat a.location) →
          ValidLat ⟨0, 2⟩ → 0 ≤ d) :=
  best_insert_min_detour [⟨"a", ⟨0, 0⟩⟩, ⟨"b", ⟨0, 1⟩⟩] ⟨0, 2⟩ (by decide)

/-- Claim C10: with at least two anchors, the returned insertion id always names
one of the first `length - 1` anchors; the solver never proposes inserting after
the final anchor of the route. -/
theorem best_insert_id_not_last (anchors : List Anchor) (cand : Coordinates)
    (hlen : 2 ≤ anchors.length) :
    ∀ id : String, ∀ d : ℝ,
      bestInsertAfterDestinationIdForCandidate anchors cand = some (id, d) →
        id ∈ anchors.dropLast.map Anchor.destinationId := by
  match anchors with
  | [] => exact absurd hlen (by norm_num)
  | [a] => exact absurd hlen (by norm_num)
  | a0 :: a1 :: rest =>
    intro id d heq
    obtain ⟨id', d', heq', hbest⟩ :=
      foldl_insertStep_none cand (a0, a1) ((a1 :: rest).zip rest) a0.destinationId
    have hres : bestInsertAfterDestinationIdForCandidate (a0 :: a1 :: rest) cand =
        some (id', d') := by
      show ((((a0, a1) :: (a1 :: rest).zip rest).foldl (insertStep cand)
            (a0.destinationId, (none : Option ℝ))).2).map
          (fun dd => ((((a0, a1) :: (a1 :: rest).zip rest).foldl (insertStep cand)
            (a0.destinationId, (none : Option ℝ))).1, dd)) = some (id', d')
      rw [heq']
      rfl
    rw [hres] at heq
    have hid : id' = id := by
      have h := Option.some.inj heq
      exact (Prod.mk.injEq _ _ _ _).mp h |>.1
    obtain ⟨i, hi, _, hname, _, _⟩ := hbest
    rw [← hid, hname]
    have hfst : ((((a0 :: a1 :: rest).zip (a0 :: a1 :: rest).tail).get ⟨i, hi⟩).1 : Anchor) ∈
        ((a0 :: a1 :: rest).zip (a0 :: a1 :: rest).tail).map Prod.fst :=
      List.mem_map_of_mem Prod.fst (List.get_mem _ i hi)
    rw [zip_tail_map_fst] at hfst
    exact List.mem_map_of_mem Anchor.destinationId hfst

/-- Witness for C10: with two anchors the proposed id is the first anchor's. -/
theorem best_insert_id_not_last_witness :
    "a" ∈ (([⟨"a", ⟨0, 0⟩⟩, ⟨"b", ⟨0, 1⟩⟩] : List Anchor).dropLast.map Anchor.destinationId) :=
  best_insert_id_not_last [⟨"a", ⟨0, 0⟩⟩, ⟨"b", ⟨0, 1⟩⟩] ⟨0, 2⟩ (by decide) "a"
    (deltaKm ⟨0, 2⟩ (⟨"a", ⟨0, 0⟩⟩, ⟨"b", ⟨0, 1⟩⟩)) rfl

/-- Claim C9: the haversine distance is symmetric, zero on equal coordinates,
and is exactly `6371 * centralAngle` as computed by the haversine formula. -/
theorem haversine_symm_self_zero :
    (∀ a b : Coordinates, haversineKm a b = haversineKm b a) ∧
      (∀ a : Coordinates, haversineKm a a = 0) ∧
      (∀ a b : Coordinates, haversineKm a b =
        6371 * (2 * atan2 (Real.sqrt (hav a b)) (Real.sqrt (1 - hav a b)))) :=
  ⟨haversineKm_comm, haversineKm_self, fun _ _ => rfl⟩

/-! ## Data model of the Discover route handler
(`src/app/api/trips/[tripId]/discover/route.ts`) -/

/-- A web source citation (`SerpApiSourceLink`). -/
structure SourceLink where
  title : String
  url : String
  snippet : Option String
deriving DecidableEq, Repr

/-- The `sourceKind` discriminator of a candidate. -/
inductive SourceKind where
  | places
  | web
  | both
deriving DecidableEq, Repr

/-- A destination (stop) of a day (`src/types/trip`); `location` is optional and
`Number.isFinite` checks on its components are vacuous over ℝ. -/
structure Destination where
  id : String
  name : String
  placeId : Option String
  address : Option String
  location : Option Coordinates
  notes : String

/-- A day of a trip: an ordered list of destinations. -/
structure Day where
  id : String
  destinations : List Destination

/-- `hasValidLocation` from `src/lib/discover.ts`: the location exists (the
`Number.isFinite` component checks hold for every real number). -/
def hasValidLocation (d : Destination) : Bool := d.location.isSome

/-- The anchors of a day: the valid-location stops in route order
(`day.destinations.filter(hasValidLocation).map(d => ({destinationId: d.id, location: d.location}))`). -/
def anchorsOfDay (day : Day) : List Anchor :=
  day.destinations.filterMap fun d =>
    match d.location with
    | some loc => some ⟨d.id, loc⟩
    | none => none

/-- The internal `Candidate` record of the route handler. -/
structure Candidate where
  candidateId : String
  placeId : String
  name : String
  address : String
  location : Coordinates
  types : List String
  detourKm : ℝ
  insertAfterDestinationId : String
  insertAfterName : String
  sources : Option (List SourceLink)
  sourceKind : SourceKind
  rating : Option ℝ
  reviewsCount : Option ℕ
  description : Option String
  featuredUserReview : Option String
  openState : Option String
  hoursSummary : Option String
  highlights : Option (List String)
  activities : Option (List String)
  amenities : Option (List String)

/-- A canonical place resolved by the Google Places helpers
(`GooglePlacesCanonicalPlace`). -/
structure Place where
  placeId : String
  name : String
  address : String
  location : Coordinates
  types : List String

/-- Details carried by a SerpAPI hint (`SerpApiPlaceDetails`). -/
structure SerpDetails where
  rating : Option ℝ
  reviews : Option ℕ
  description : Option String
  featuredUserReview : Option String
  openState : Option String
  hoursSummary : Option String
  highlights : Option (List String)
  activities : Option (List String)
  amenities : Option (List String)

/-- A SerpAPI place hint (`SerpApiPlaceHint`). -/
structure SerpHint where
  name : String
  placeIdHint : Option String
  sources : List SourceLink
  details : Option SerpDetails

/-! ### JS `Map<string, Candidate>` modelled as an insertion-ordered
association list. -/

/-- `Map.get` on an insertion-ordered association list. -/
def mapGet (m : List (String × Candidate)) (k : String) : Option Candidate :=
  (m.find? fun p => p.1 = k).map (·.2)

/-- `Map.set`: replace in place when the key exists, else append. -/
def mapSet (m : List (String × Candidate)) (k : String) (v : Candidate) :
    List (String × Candidate) :=
  if m.any (fun p => p.1 = k) then
    m.map fun p => if p.1 = k then (k, v) else p
  else m ++ [(k, v)]

/-- `minDistanceKmToAnchors` from the route handler; the `POSITIVE_INFINITY`
initial value is modelled by `none`. -/
noncomputable def minDistanceKmToAnchors (anchors : List Anchor) (location : Coordinates) :
    Option ℝ :=
  anchors.foldl
    (fun best a =>
      match best with
      | none => some (haversineKm a.location location)
      | some b =>
        if haversineKm a.location location < b then some (haversineKm a.location location)
        else some b)
    none

/-- The candidate built from a resolved SerpAPI hint (route handler lines
182-203): `sourceKind = web`, detour fields zeroed. -/
def mkWebCandidate (h : SerpHint) (place : Place) : Candidate where
  candidateId := place.placeId
  placeId := place.placeId
  name := place.name
  address := place.address
  location := place.location
  types := place.types
  detourKm := 0
  insertAfterDestinationId := ""
  insertAfterName := ""
  sources := some h.sources
  sourceKind := .web
  rating := h.details.bind (·.rating)
  reviewsCount := h.details.bind (·.reviews)
  description := h.details.bind (·.description)
  featuredUserReview := h.details.bind (·.featuredUserReview)
  openState := h.details.bind (·.openState)
  hoursSummary := h.details.bind (·.hoursSummary)
  highlights := h.details.bind (·.highlights)
  activities := h.details.bind (·.activities)
  amenities := h.details.bind (·.amenities)

/-- The validation loop of `fetchSerpApiHiddenGemCandidates`.  The external
resolution of each hint (details lookup by id hint, else find-place from text)
is an input: each hint is paired with its resolved canonical place, `none` when
resolution found nothing.  At most `MAX_VALIDATE = 12` hints are processed;
already-present place ids are skipped; the 50 km guardrail drops resolved
places far from every anchor. -/
noncomputable def fetchSerpApiHiddenGemCandidates (anchors : List Anchor)
    (existingPlaceIds : List String) (resolved : List (SerpHint × Option Place)) :
    List Candidate :=
  (resolved.take 12).foldl
    (fun validated hr =>
      match hr.2 with
      | none => validated
      | some place =>
        if place.placeId ∈ existingPlaceIds then validated
        else
          match minDistanceKmToAnchors anchors place.location with
          | none => validated
          | some farKm =>
            if 50 < farKm then validated else validated ++ [mkWebCandidate hr.1 place])
    []

lemma minDist_foldl_le_acc (loc : Coordinates) :
    ∀ (l : List Anchor) (b : ℝ),
      ∃ r : ℝ,
        l.foldl
            (fun best a =>
              match best with
              | none => some (haversineKm a.location loc)
              | some bb =>
                if haversineKm a.location loc < bb then some (haversineKm a.location loc)
                else some bb)
            (some b) = some r ∧ r ≤ b := by
  intro l
  induction l with
  | nil => exact fun b => ⟨b, rfl, le_refl b⟩
  | cons x t ih =>
    intro b
    by_cases hlt : haversineKm x.location loc < b
    · obtain ⟨r, hr, hrb⟩ := ih (haversineKm x.location loc)
      refine ⟨r, ?_, le_trans hrb hlt.le⟩
      rw [List.foldl_cons]
      simpa [hlt] using hr
    · obtain ⟨r, hr, hrb⟩ := ih b
      refine ⟨r, ?_, hrb⟩
      rw [List.foldl_cons]
      simpa [hlt] using hr

lemma minDist_foldl_le_of_mem (loc : Coordinates) {a : Anchor} :
    ∀ (l : List Anchor), a ∈ l → ∀ b : ℝ,
      ∃ r : ℝ,
        l.foldl
            (fun best x =>
              match best with
              | none => some (haversineKm x.location loc)
              | some bb =>
                if haversineKm x.location loc < bb then some (haversineKm x.location loc)
                else some bb)
            (some b) = some r ∧ r ≤ haversineKm a.location loc := by
  intro l
  induction l with
  | nil => exact fun ha => absurd ha (List.not_mem_nil a)
  | cons y s ih =>
    intro ha b
    rcases List.mem_cons.mp ha with hay | has
    · subst hay
      by_cases hlt : haversineKm a.location loc < b
      · obtain ⟨r, hr, hrb⟩ := minDist_foldl_le_acc loc s (haversineKm a.location loc)
        refine ⟨r, ?_, hrb⟩
        rw [List.foldl_cons]
        simpa [hlt] using hr
      · obtain ⟨r, hr, hrb⟩ := minDist_foldl_le_acc loc s b
        refine ⟨r, ?_, le_trans hrb (le_of_not_lt hlt)⟩
        rw [List.foldl_cons]
        simpa [hlt] using hr
    · by_cases hlt : haversineKm y.location loc < b
      · obtain ⟨r, hr, hrb⟩ := ih has (haversineKm y.location loc)
        refine ⟨r, ?_, hrb⟩
        rw [List.foldl_cons]
        simpa [hlt] using hr
      · obtain ⟨r, hr, hrb⟩ := ih has b
        refine ⟨r, ?_, hrb⟩
        rw [List.foldl_cons]
        simpa [hlt] using hr

lemma minDist_le_of_mem {anchors : List Anchor} {a : Anchor} (ha : a ∈ anchors)
    (loc : Coordinates) :
    ∃ r : ℝ, minDistanceKmToAnchors anchors loc = some r ∧ r ≤ haversineKm a.location loc := by
  unfold minDistanceKmToAnchors
  match anchors, ha with
  | x :: t, ha =>
    rw [List.foldl_cons]
    rcases List.mem_cons.mp ha with hax | hat
    · subst hax
      obtain ⟨r, hr, hrb⟩ := minDist_foldl_le_acc loc t (haversineKm a.location loc)
      exact ⟨r, by simpa using hr, hrb⟩
    · obtain ⟨r, hr, hrb⟩ := minDist_foldl_le_of_mem loc t hat (haversineKm x.location loc)
      exact ⟨r, by simpa using hr, hrb⟩

lemma serp_fold_near (anchors : List Anchor) (ex : List String) :
    ∀ (l : List (SerpHint × Option Place)) (acc : List Candidate),
      (∀ c ∈ acc, ∃ d, minDistanceKmToAnchors anchors c.location = some d ∧ d ≤ 50) →
      ∀ c ∈ l.foldl
          (fun validated hr =>
            match hr.2 with
            | none => validated
            | some place =>
              if place.placeId ∈ ex then validated
              else
                match minDistanceKmToAnchors anchors place.location with
                | none => validated
                | some farKm =>
                  if 50 < farKm then validated else validated ++ [mkWebCandidate hr.1 place])
          acc,
        ∃ d, minDistanceKmToAnchors anchors c.location = some d ∧ d ≤ 50 := by
  intro l
  induction l with
  | nil => intro acc hacc; simpa using hacc
  | cons hr t ih =>
    intro acc hacc
    rw [List.foldl_cons]
    apply ih
    obtain ⟨h, op⟩ := hr
    rcases op with _ | place
    · exact hacc
    · show ∀ c ∈ (if place.placeId ∈ ex then acc
          else
            match minDistanceKmToAnchors anchors place.location with
            | none => acc
            | some farKm =>
              if 50 < farKm then acc else acc ++ [mkWebCandidate h place]), _
      by_cases hex : place.placeId ∈ ex
      · rw [if_pos hex]
        exact hacc
      · rw [if_neg hex]
        rcases hmd : minDistanceKmToAnchors anchors place.location with _ | farKm
        · exact hacc
        · show ∀ c ∈ (if 50 < farKm then acc else acc ++ [mkWebCandidate h place]), _
          by_cases hfar : 50 < farKm
          · rw [if_pos hfar]
            exact hacc
          · rw [if_neg hfar]
            intro c hc
            rcases List.mem_append.mp hc with hcl | hcr
            · exact hacc c hcl
            · have hceq : c = mkWebCandidate h place := List.mem_singleton.mp hcr
              subst hceq
              exact ⟨farKm, hmd, le_of_not_lt hfar⟩

/-- Claim C3: every enrichment-sourced candidate surviving the validator lies
within 50 km of some anchor (candidates farther than 50 km from every anchor
never appear in the output), and a location coinciding with any anchor always
passes the guardrail check. -/
theorem serp_guardrail_50km (anchors : List Anchor) (existingPlaceIds : List String)
    (resolved : List (SerpHint × Option Place)) (loc : Coordinates) :
    (∀ c ∈ fetchSerpApiHiddenGemCandidates anchors existingPlaceIds resolved,
      ∃ d, minDistanceKmToAnchors anchors c.location = some d ∧ d ≤ 50) ∧
    (∀ a ∈ anchors, a.location = loc →
      ∃ d, minDistanceKmToAnchors anchors loc = some d ∧ d ≤ 50) := by
  constructor
  · intro c hc
    exact serp_fold_near anchors existingPlaceIds (resolved.take 12) []
      (by intro c hc; exact absurd hc (List.not_mem_nil c)) c hc
  · intro a ha heq
    obtain ⟨r, hr, hrb⟩ := minDist_le_of_mem ha loc
    rw [heq, haversineKm_self] at hrb
    exact ⟨r, hr, le_trans hrb (by norm_num)⟩

/-- Witness for C3: one anchor at the origin, the resolved hint coincides with
it; the candidate passes the guardrail and the coincident location is accepted. -/
theorem serp_guardrail_50km_witness :
    (∃ d, minDistanceKmToAnchors [⟨"a", ⟨0, 0⟩⟩]
        (mkWebCandidate ⟨"Gem", none, [], none⟩ ⟨"p1", "Gem", "addr", ⟨0, 0⟩, []⟩).location =
          some d ∧ d ≤ 50) ∧
    (∃ d, minDistanceKmToAnchors [⟨"a", ⟨0, 0⟩⟩] ⟨0, 0⟩ = some d ∧ d ≤ 50) := by
  have h := serp_guardrail_50km [⟨"a", ⟨0, 0⟩⟩] []
    [(⟨"Gem", none, [], none⟩, some ⟨"p1", "Gem", "addr", ⟨0, 0⟩, []⟩)] ⟨0, 0⟩
  refine ⟨h.1 (mkWebCandidate ⟨"Gem", none, [], none⟩ ⟨"p1", "Gem", "addr", ⟨0, 0⟩, []⟩) ?_,
    h.2 ⟨"a", ⟨0, 0⟩⟩ (List.mem_singleton.mpr rfl) rfl⟩
  show mkWebCandidate ⟨"Gem", none, [], none⟩ ⟨"p1", "Gem", "addr", ⟨0, 0⟩, []⟩ ∈
    fetchSerpApiHiddenGemCandidates [⟨"a", ⟨0, 0⟩⟩] []
      [(⟨"Gem", none, [], none⟩, some ⟨"p1", "Gem", "addr", ⟨0, 0⟩, []⟩)]
  unfold fetchSerpApiHiddenGemCandidates minDistanceKmToAnchors
  simp [haversineKm_self]

/-! ## Structured fan-out and failure handling -/

/-- The error outcomes the route handler can produce. -/
inductive DiscoverError where
  | noDestinations
  | noMappedDestination
  | mapsKeyMissing
  | misconfiguredMapsKey
  | internalError
deriving DecidableEq, Repr

/-- The user-facing message of each error (route handler literals). -/
def errorMessage : DiscoverError → String
  | .noDestinations => "Add at least one destination first"
  | .noMappedDestination => "Discover requires at least one mapped destination"
  | .mapsKeyMissing => "Server Google Maps API key not configured"
  | .misconfiguredMapsKey => "Misconfigured Google Maps key. The server Places API cannot use a referrer-restricted key."
  | .internalError => "Internal server error"

/-- Boolean prefix test on character lists. -/
def charsPrefixOf : List Char → List Char → Bool
  | [], _ => true
  | _ :: _, [] => false
  | c :: cs, d :: ds => c == d && charsPrefixOf cs ds

/-- Boolean substring test on character lists. -/
def charsContains (pat : List Char) : List Char → Bool
  | [] => charsPrefixOf pat []
  | d :: ds => charsPrefixOf pat (d :: ds) || charsContains pat ds

/-- `isRefererRestrictedKeyError` from the route handler: the case-insensitive
regex test for "referer restrictions cannot be used with this api", modelled as
a lower-cased substring check. -/
def isRefererRestrictedKeyError (msg : String) : Bool :=
  charsContains ("referer restrictions cannot be used with this api").toList
    (msg.toList.map Char.toLower)

/-- The error message of a failed category fetch, when one failed. -/
def errOf : Except String (List Candidate) → Option String
  | .error m => some m
  | .ok _ => none

/-- The `Promise.all` fan-out of the three category searches together with its
`try/catch`: the first rejection aborts the whole request — with the actionable
misconfiguration message when it is the referer-restriction error, otherwise
rethrown to the outer handler (generic internal error). -/
def structuredFanOut (fetched : List (Except String (List Candidate))) :
    Except DiscoverError (List (List Candidate)) :=
  match fetched.findSome? errOf with
  | some msg =>
    if isRefererRestrictedKeyError msg then Except.error DiscoverError.misconfiguredMapsKey
    else Except.error DiscoverError.internalError
  | none =>
    Except.ok (fetched.filterMap fun r =>
      match r with
      | .ok l => some l
      | .error _ => none)

/-- Counterexample for claim C8: a single non-systemic category failure is fatal
to the whole request (the fan-out returns an error instead of continuing with
the remaining candidates). -/
theorem structured_fanout_counterexample :
    structuredFanOut
        [Except.ok [], Except.error "Places nearbysearch failed (500)", Except.ok []] =
      Except.error DiscoverError.internalError ∧
    ∀ ls : List (List Candidate),
      structuredFanOut
          [Except.ok [], Except.error "Places nearbysearch failed (500)", Except.ok []] ≠
        Except.ok ls := by
  constructor
  · rfl
  · intro ls h
    rw [show structuredFanOut
        [Except.ok [], Except.error "Places nearbysearch failed (500)", Except.ok []] =
        Except.error DiscoverError.internalError from rfl] at h
    exact Except.noConfusion h

/-- Claim C8 (amended): any category-fetch failure aborts the whole request; the
referer-restriction misconfiguration is reported with its actionable message and
every other failure becomes the generic internal error; only when every category
fetch succeeds does the pipeline continue with their candidate lists. -/
theorem structured_fanout_failure (fetched : List (Except String (List Candidate))) :
    ((∀ r ∈ fetched, errOf r = none) →
      structuredFanOut fetched =
        Except.ok (fetched.filterMap fun r =>
          match r with
          | .ok l => some l
          | .error _ => none)) ∧
    (∀ msg : String, fetched.findSome? errOf = some msg →
      (structuredFanOut fetched =
        if isRefererRestrictedKeyError msg then Except.error DiscoverError.misconfiguredMapsKey
        else Except.error DiscoverError.internalError) ∧
      ∀ ls : List (List Candidate), structuredFanOut fetched ≠ Except.ok ls) := by
  constructor
  · intro hall
    unfold structuredFanOut
    rw [List.findSome?_eq_none_iff.mpr hall]
  · intro msg hmsg
    constructor
    · unfold structuredFanOut
      rw [hmsg]
    · intro ls h
      unfold structuredFanOut at h
      rw [hmsg] at h
      have h' : (if isRefererRestrictedKeyError msg then
          Except.error DiscoverError.misconfiguredMapsKey
        else (Except.error DiscoverError.internalError :
          Except DiscoverError (List (List Candidate)))) = Except.ok ls := h
      by_cases hr : isRefererRestrictedKeyError msg
      · rw [if_pos hr] at h'
        exact Except.noConfusion h'
      · rw [if_neg hr] at h'
        exact Except.noConfusion h'

/-- Witness for C8 (amended): a concrete failing fetch list. -/
theorem structured_fanout_failure_witness :
    (structuredFanOut [Except.ok [], Except.error "boom", Except.ok []] =
      if isRefererRestrictedKeyError "boom" then Except.error DiscoverError.misconfiguredMapsKey
      else Except.error DiscoverError.internalError) ∧
    ∀ ls : List (List Candidate),
      structuredFanOut [Except.ok [], Except.error "boom", Except.ok []] ≠ Except.ok ls :=
  (structured_fanout_failure [Except.ok [], Except.error "boom", Except.ok []]).2 "boom" rfl

/-! ## Deduplication and two-source merge -/

/-- The structured-results dedupe loop (route handler lines 295-303): skip place
ids already present as stops, first occurrence of a candidate id wins. -/
def dedupeStructured (fetched : List (List Candidate)) (existingPlaceIds : List String) :
    List (String × Candidate) :=
  fetched.foldl
    (fun byId list =>
      list.foldl
        (fun byId c =>
          if c.placeId ∈ existingPlaceIds then byId
          else if (mapGet byId c.candidateId).isSome then byId
          else mapSet byId c.candidateId c)
        byId)
    []

/-- Merging one web candidate into the byId map (route handler lines 317-328):
a fresh id is inserted; an existing record keeps all its fields except that the
source lists are concatenated and capped at 4 and a `places` kind is promoted to
`both`. -/
def mergeStep (byId : List (String × Candidate)) (c : Candidate) : List (String × Candidate) :=
  match mapGet byId c.candidateId with
  | none => mapSet byId c.candidateId c
  | some prev =>
    mapSet byId c.candidateId
      { prev with
        sources := some ((prev.sources.getD [] ++ c.sources.getD []).take 4)
        sourceKind := if prev.sourceKind = SourceKind.places then SourceKind.both
          else prev.sourceKind }

/-- The loop merging all web candidates into the byId map. -/
def mergeWebCandidates (byId : List (String × Candidate)) (webCandidates : List Candidate) :
    List (String × Candidate) :=
  webCandidates.foldl mergeStep byId

lemma mapGet_map_replace (m : List (String × Candidate)) (k : String) (v : Candidate) :
    mapGet (m.map fun p => if p.1 = k then (k, v) else p) k =
      if m.any (fun p => p.1 = k) then some v else none := by
  induction m with
  | nil => rfl
  | cons p t ih =>
    by_cases hpk : p.1 = k
    · unfold mapGet
      rw [List.map_cons, List.any_cons]
      rw [if_pos hpk]
      simp [hpk]
    · unfold mapGet
      rw [List.map_cons, List.any_cons]
      rw [if_neg hpk]
      have hb : (decide (p.1 = k) || t.any (fun p => p.1 = k)) =
          t.any (fun p => p.1 = k) := by
        simp [hpk]
      rw [hb]
      rw [List.find?_cons_of_neg _ (by simpa using hpk)]
      exact ih

lemma mapGet_append_single (m : List (String × Candidate)) (k : String) (v : Candidate)
    (habs : m.any (fun p => p.1 = k) = false) :
    mapGet (m ++ [(k, v)]) k = some v := by
  induction m with
  | nil => simp [mapGet]
  | cons p t ih =>
    rw [List.any_cons] at habs
    have hpk : ¬p.1 = k := by
      intro hk
      simp [hk] at habs
    have ht : t.any (fun p => p.1 = k) = false := by
      rcases Bool.or_eq_false_iff.mp habs with ⟨_, h2⟩
      exact h2
    unfold mapGet
    rw [List.cons_append, List.find?_cons_of_neg _ (by simpa using hpk)]
    exact ih ht

lemma mapGet_mapSet_self (m : List (String × Candidate)) (k : String) (v : Candidate) :
    mapGet (mapSet m k v) k = some v := by
  unfold mapSet
  by_cases hany : m.any (fun p => p.1 = k)
  · rw [if_pos hany]
    rw [mapGet_map_replace, if_pos hany]
  · rw [if_neg hany]
    exact mapGet_append_single m k v (Bool.not_eq_true _ ▸ eq_false_of_ne_true hany)

lemma mapSet_keys_of_any (m : List (String × Candidate)) (k : String) (v : Candidate)
    (hany : m.any (fun p => p.1 = k) = true) :
    (mapSet m k v).map Prod.fst = m.map Prod.fst := by
  unfold mapSet
  rw [if_pos hany, List.map_map]
  apply List.map_congr_left
  intro p _
  by_cases hpk : p.1 = k
  · simp [hpk]
  · simp [hpk]

lemma mapGet_some_any {m : List (String × Candidate)} {k : String} {prev : Candidate}
    (h : mapGet m k = some prev) : m.any (fun p => p.1 = k) = true := by
  unfold mapGet at h
  rcases hf : m.find? (fun p => p.1 = k) with _ | p
  · rw [hf] at h
    exact Option.noConfusion h
  · have hp := List.find?_some hf
    have hmem := List.mem_of_find?_eq_some hf
    exact List.any_eq_true.mpr ⟨p, hmem, hp⟩

lemma mapGet_some_mem_keys {m : List (String × Candidate)} {k : String} {prev : Candidate}
    (h : mapGet m k = some prev) : k ∈ m.map Prod.fst := by
  unfold mapGet at h
  rcases hf : m.find? (fun p => p.1 = k) with _ | p
  · rw [hf] at h
    exact Option.noConfusion h
  · have hp : p.1 = k := by simpa using List.find?_some hf
    have hmem := List.mem_of_find?_eq_some hf
    exact hp ▸ List.mem_map_of_mem Prod.fst hmem

/-- Claim C5 (amended): when a web candidate's id is already present (a
structured candidate), the map keeps exactly one entry for that id, whose record
has `sourceKind = both` and the two source lists concatenated and capped at 4,
and keeps every descriptive field of the structured record (the web candidate's
descriptive fields are discarded, not the richer of the two). -/
theorem merge_same_id (byId : List (String × Candidate)) (w : Candidate) (prev : Candidate)
    (hprev : mapGet byId w.candidateId = some prev)
    (hkind : prev.sourceKind = SourceKind.places) :
    ∃ merged : Candidate,
      mapGet (mergeStep byId w) w.candidateId = some merged ∧
      merged.sourceKind = SourceKind.both ∧
      merged.sources = some ((prev.sources.getD [] ++ w.sources.getD []).take 4) ∧
      merged.description = prev.description ∧
      merged.featuredUserReview = prev.featuredUserReview ∧
      merged.openState = prev.openState ∧
      merged.hoursSummary = prev.hoursSummary ∧
      merged.highlights = prev.highlights ∧
      merged.activities = prev.activities ∧
      merged.amenities = prev.amenities ∧
      (mergeStep byId w).map Prod.fst = byId.map Prod.fst ∧
      ((byId.map Prod.fst).Nodup →
        ((mergeStep byId w).map Prod.fst).count w.candidateId = 1) := by
  have hany := mapGet_some_any hprev
  have hkeys : (mergeStep byId w).map Prod.fst = byId.map Prod.fst := by
    unfold mergeStep
    rw [hprev]
    exact mapSet_keys_of_any byId w.candidateId _ hany
  refine ⟨{ prev with
      sources := some ((prev.sources.getD [] ++ w.sources.getD []).take 4)
      sourceKind := if prev.sourceKind = SourceKind.places then SourceKind.both
        else prev.sourceKind }, ?_, ?_, rfl, rfl, rfl, rfl, rfl, rfl, rfl, rfl, hkeys, ?_⟩
  · unfold mergeStep
    rw [hprev]
    exact mapGet_mapSet_self byId w.candidateId _
  · simp [hkind]
  · intro hnodup
    rw [hkeys]
    exact List.count_eq_one_of_mem hnodup (mapGet_some_mem_keys hprev)

/-- A structured candidate with no descriptive details. -/
def mergeExamplePrev : Candidate :=
  ⟨"p1", "p1", "Cafe X", "addr", ⟨0, 0⟩, [], 0, "", "",
    some [⟨"t1", "u1", none⟩], SourceKind.places, none, none,
    none, none, none, none, none, none, none⟩

/-- A web candidate for the same place id carrying a description. -/
def mergeExampleWeb : Candidate :=
  ⟨"p1", "p1", "Cafe X", "addr", ⟨0, 0⟩, [], 0, "", "",
    some [⟨"t2", "u2", none⟩], SourceKind.web, none, none,
    some "A beloved local hidden gem.", none, none, none, none, none, none⟩

/-- Counterexample for claim C5: the merged record drops the web candidate's
richer descriptive details (its description is `none`, the structured record's,
although the web record carried one); kind promotion and source union do hold. -/
theorem merge_counterexample :
    (mergeWebCandidates [("p1", mergeExamplePrev)] [mergeExampleWeb]).map
        (fun p => p.2.description) = [none] ∧
    mergeExampleWeb.description = some "A beloved local hidden gem." ∧
    (mergeWebCandidates [("p1", mergeExamplePrev)] [mergeExampleWeb]).map
        (fun p => p.2.sourceKind) = [SourceKind.both] ∧
    (mergeWebCandidates [("p1", mergeExamplePrev)] [mergeExampleWeb]).map
        (fun p => p.2.sources) =
      [some [⟨"t1", "u1", none⟩, ⟨"t2", "u2", none⟩]] :=
  ⟨rfl, rfl, rfl, rfl⟩

/-- Witness for C5 (amended) at the concrete pair of records. -/
theorem merge_same_id_witness :
    ∃ merged : Candidate,
      mapGet (mergeStep [("p1", mergeExamplePrev)] mergeExampleWeb)
          mergeExampleWeb.candidateId = some merged ∧
      merged.sourceKind = SourceKind.both ∧
      merged.sources = some ((mergeExamplePrev.sources.getD [] ++
        mergeExampleWeb.sources.getD []).take 4) ∧
      merged.description = mergeExamplePrev.description ∧
      merged.featuredUserReview = mergeExamplePrev.featuredUserReview ∧
      merged.openState = mergeExamplePrev.openState ∧
      merged.hoursSummary = mergeExamplePrev.hoursSummary ∧
      merged.highlights = mergeExamplePrev.highlights ∧
      merged.activities = mergeExamplePrev.activities ∧
      merged.amenities = mergeExamplePrev.amenities ∧
      (mergeStep [("p1", mergeExamplePrev)] mergeExampleWeb).map Prod.fst =
        [("p1", mergeExamplePrev)].map Prod.fst ∧
      (([("p1", mergeExamplePrev)].map Prod.fst).Nodup →
        ((mergeStep [("p1", mergeExamplePrev)] mergeExampleWeb).map Prod.fst).count
          mergeExampleWeb.candidateId = 1) :=
  merge_same_id [("p1", mergeExamplePrev)] mergeExampleWeb mergeExamplePrev rfl rfl

/-! ## Ranking / selection stage and streaming delivery -/

/-- A selection returned by the external ranking process
(`{ candidateId, whyItFits }`). -/
structure Selection where
  candidateId : String
  whyItFits : String

/-- The rationale text of a suggestion.  The generic low-detour phrasing
interpolates the detour number into a template string; the interpolation is kept
symbolic (`lowDetour km`) since formatting a real is not a logical operation. -/
inductive Why where
  | text (s : String)
  | lowDetour (km : ℝ)

/-- The suggestion record returned to the caller. -/
structure Suggestion where
  candidateId : String
  placeId : String
  name : String
  address : String
  location : Coordinates
  detourKm : ℝ
  insertAfterDestinationId : String
  whyItFits : Why
  placementText : String
  sources : List SourceLink
  sourceKind : SourceKind
  openState : Option String
  hoursSummary : Option String

/-- Second stage of the JS falsy chain
`description || (featuredUserReview ? quoted : '') || lowDetour`. -/
def fallbackWhyReview (c : Candidate) : Why :=
  match c.featuredUserReview with
  | some r => Why.text ("“" ++ r ++ "”")
  | none => Why.lowDetour c.detourKm

/-- The synthesized rationale of the deterministic / fallback paths (empty
strings are falsy in JS, hence skipped). -/
def fallbackWhy (c : Candidate) : Why :=
  match c.description with
  | some d => if d = "" then fallbackWhyReview c else Why.text d
  | none => fallbackWhyReview c

/-- The suggestion shape of the deterministic (no ranking configured) path
(route lines 364-382; it carries no open-state fields). -/
def mkDeterministicSuggestion (c : Candidate) : Suggestion :=
  ⟨c.candidateId, c.placeId, c.name, c.address, c.location, c.detourKm,
    c.insertAfterDestinationId, fallbackWhy c,
    "Fits best after " ++ c.insertAfterName ++ ".", c.sources.getD [], c.sourceKind,
    none, none⟩

/-- The suggestion shape of the empty-ranking fallback path (route lines
539-561). -/
def mkFallbackSuggestion (c : Candidate) : Suggestion :=
  ⟨c.candidateId, c.placeId, c.name, c.address, c.location, c.detourKm,
    c.insertAfterDestinationId, fallbackWhy c,
    "Fits best after " ++ c.insertAfterName ++ ".", c.sources.getD [], c.sourceKind,
    c.openState, c.hoursSummary⟩

/-- The suggestion built from a ranked selection (streaming and batch paths). -/
def mkAssistedSuggestion (c : Candidate) (sel : Selection) : Suggestion :=
  ⟨c.candidateId, c.placeId, c.name, c.address, c.location, c.detourKm,
    c.insertAfterDestinationId, Why.text sel.whyItFits,
    "Fits best after " ++ c.insertAfterName ++ ".", c.sources.getD [], c.sourceKind,
    c.openState, c.hoursSummary⟩

/-- `[...candidates].sort((a, b) => a.detourKm - b.detourKm)`: ascending stable
sort by detour. -/
noncomputable def sortByDetour (candidates : List Candidate) : List Candidate :=
  candidates.mergeSort fun a b => a.detourKm ≤ b.detourKm

/-- The deterministic ranking mode: ascending detour, first `limit`. -/
noncomputable def deterministicSuggestions (candidates : List Candidate) (limit : ℕ) :
    List Suggestion :=
  ((sortByDetour candidates).take limit).map mkDeterministicSuggestion

/-- The fallback applied when the assisted pass yields zero usable selections
(non-streaming path only). -/
noncomputable def fallbackSuggestions (candidates : List Candidate) (limit : ℕ) :
    List Suggestion :=
  ((sortByDetour candidates).take limit).map mkFallbackSuggestion

/-- `new Map(candidates.map(c => [c.candidateId, c]))`. -/
def mkById (candidates : List Candidate) : List (String × Candidate) :=
  candidates.map fun c => (c.candidateId, c)

/-- The non-streaming ranked-output collection loop (route lines 512-537):
unknown ids are dropped, duplicates are dropped via the `seen` set. -/
def collectSelections (cById : List (String × Candidate)) :
    List Selection → List String → List Suggestion
  | [], _ => []
  | sel :: rest, seen =>
    match mapGet cById sel.candidateId with
    | none => collectSelections cById rest seen
    | some c =>
      if c.candidateId ∈ seen then collectSelections cById rest seen
      else mkAssistedSuggestion c sel :: collectSelections cById rest (c.candidateId :: seen)

/-- The non-streaming assisted suggestions: collected, then `slice(0, limit)`. -/
def assistedSuggestions (cById : List (String × Candidate)) (output : List Selection)
    (limit : ℕ) : List Suggestion :=
  (collectSelections cById output []).take limit

/-- The complete non-streaming assisted response: deterministic fallback when
the assisted pass produced nothing usable. -/
noncomputable def nonStreamingSuggestions (candidates : List Candidate)
    (output : List Selection) (limit : ℕ) : List Suggestion :=
  if (assistedSuggestions (mkById candidates) output limit).length = 0 then
    fallbackSuggestions candidates limit
  else assistedSuggestions (mkById candidates) output limit

/-- One emitted NDJSON record of the streaming path. -/
inductive StreamRecord where
  | data (s : Suggestion)
  | fail (msg : String)

/-- The streaming consumption loop (route lines 462-488): dedupe by candidate
id, stop (break) as soon as `limit` unique records have been emitted.  Returns
the emitted records and whether the loop broke early. -/
def streamConsume (cById : List (String × Candidate)) (limit : ℕ) :
    List Selection → List String → List StreamRecord × Bool
  | [], _ => ([], false)
  | sel :: rest, seen =>
    match mapGet cById sel.candidateId with
    | none => streamConsume cById limit rest seen
    | some c =>
      if c.candidateId ∈ seen then streamConsume cById limit rest seen
      else
        if limit ≤ seen.length + 1 then ([StreamRecord.data (mkAssistedSuggestion c sel)], true)
        else
          (StreamRecord.data (mkAssistedSuggestion c sel) ::
            (streamConsume cById limit rest (c.candidateId :: seen)).1,
           (streamConsume cById limit rest (c.candidateId :: seen)).2)

/-- One whole streaming run (route lines 459-496): `elems` are the selections
the upstream element stream yields before it ends or raises `err`; the `catch`
appends a single error record (only reachable when the loop did not break
early), and the `finally` always closes the stream (second component `true`). -/
def streamRun (cById : List (String × Candidate)) (limit : ℕ) (elems : List Selection)
    (err : Option String) : List StreamRecord × Bool :=
  match err, streamConsume cById limit elems [] with
  | some msg, (recs, false) => (recs ++ [StreamRecord.fail msg], true)
  | some _, (recs, true) => (recs, true)
  | none, (recs, _) => (recs, true)

/-- The candidate ids of the data records of a stream. -/
def dataIds (recs : List StreamRecord) : List String :=
  recs.filterMap fun r =>
    match r with
    | StreamRecord.data s => some s.candidateId
    | StreamRecord.fail _ => none

lemma mapGet_some_mem_val {m : List (String × Candidate)} {k : String} {v : Candidate}
    (h : mapGet m k = some v) : ∃ p ∈ m, p.2 = v := by
  unfold mapGet at h
  rcases hf : m.find? (fun p => p.1 = k) with _ | p
  · rw [hf] at h
    exact Option.noConfusion h
  · rw [hf] at h
    exact ⟨p, List.mem_of_find?_eq_some hf, Option.some.inj h⟩

lemma streamConsume_spec (cById : List (String × Candidate)) (limit : ℕ) :
    ∀ (l : List Selection) (seen : List String), seen.length < limit →
      (∀ r ∈ (streamConsume cById limit l seen).1, ∃ s, r = StreamRecord.data s) ∧
      (dataIds (streamConsume cById limit l seen).1).Nodup ∧
      (∀ id ∈ dataIds (streamConsume cById limit l seen).1, id ∉ seen) ∧
      (∀ id ∈ dataIds (streamConsume cById limit l seen).1, ∃ p ∈ cById, p.2.candidateId = id) ∧
      seen.length + (dataIds (streamConsume cById limit l seen).1).length ≤ limit ∧
      ((streamConsume cById limit l seen).2 = true →
        seen.length + (dataIds (streamConsume cById limit l seen).1).length = limit) := by
  intro l
  induction l with
  | nil =>
    intro seen hseen
    refine ⟨?_, ?_, ?_, ?_, ?_, ?_⟩
    · intro r hr
      exact absurd hr (List.not_mem_nil r)
    · exact List.nodup_nil
    · intro id hid
      exact absurd hid (List.not_mem_nil id)
    · intro id hid
      exact absurd hid (List.not_mem_nil id)
    · simpa [dataIds] using hseen.le
    · intro h
      exact Bool.noConfusion h
  | cons sel rest ih =>
    intro seen hseen
    rcases hm : mapGet cById sel.candidateId with _ | c
    · have hred : streamConsume cById limit (sel :: rest) seen =
          streamConsume cById limit rest seen := by
        show (match mapGet cById sel.candidateId with
          | none => streamConsume cById limit rest seen
          | some c =>
            if c.candidateId ∈ seen then streamConsume cById limit rest seen
            else
              if limit ≤ seen.length + 1 then
                ([StreamRecord.data (mkAssistedSuggestion c sel)], true)
              else
                (StreamRecord.data (mkAssistedSuggestion c sel) ::
                  (streamConsume cById limit rest (c.candidateId :: seen)).1,
                 (streamConsume cById limit rest (c.candidateId :: seen)).2)) =
          streamConsume cById limit rest seen
        rw [hm]
      rw [hred]
      exact ih seen hseen
    · have hred : streamConsume cById limit (sel :: rest) seen =
          (if c.candidateId ∈ seen then streamConsume cById limit rest seen
           else
             if limit ≤ seen.length + 1 then
               ([StreamRecord.data (mkAssistedSuggestion c sel)], true)
             else
               (StreamRecord.data (mkAssistedSuggestion c sel) ::
                 (streamConsume cById limit rest (c.candidateId :: seen)).1,
                (streamConsume cById limit rest (c.candidateId :: seen)).2)) := by
        show (match mapGet cById sel.candidateId with
          | none => streamConsume cById limit rest seen
          | some c =>
            if c.candidateId ∈ seen then streamConsume cById limit rest seen
            else
              if limit ≤ seen.length + 1 then
                ([StreamRecord.data (mkAssistedSuggestion c sel)], true)
              else
                (StreamRecord.data (mkAssistedSuggestion c sel) ::
                  (streamConsume cById limit rest (c.candidateId :: seen)).1,
                 (streamConsume cById limit rest (c.candidateId :: seen)).2)) = _
        rw [hm]
      rw [hred]
      by_cases hdup : c.candidateId ∈ seen
      · rw [if_pos hdup]
        exact ih seen hseen
      · rw [if_neg hdup]
        by_cases hbreak : limit ≤ seen.length + 1
        · rw [if_pos hbreak]
          have hcm : ∃ p ∈ cById, p.2.candidateId = c.candidateId := by
            obtain ⟨p, hp, hpv⟩ := mapGet_some_mem_val hm
            exact ⟨p, hp, by rw [hpv]⟩
          refine ⟨?_, ?_, ?_, ?_, ?_, ?_⟩
          · intro r hr
            rw [List.mem_singleton.mp hr]
            exact ⟨mkAssistedSuggestion c sel, rfl⟩
          · simp [dataIds]
          · intro id hid
            have : id = c.candidateId := by simpa [dataIds] using hid
            rw [this]
            exact hdup
          · intro id hid
            have : id = c.candidateId := by simpa [dataIds] using hid
            rw [this]
            exact hcm
          · simpa [dataIds] using hseen
          · intro _
            have hlen1 :
                (dataIds ([StreamRecord.data (mkAssistedSuggestion c sel)], true).1).length = 1 := by
              simp [dataIds]
            omega

        · rw [if_neg hbreak]
          have hseen' : (c.candidateId :: seen).length < limit := by
            simp only [List.length_cons]
            omega
          obtain ⟨ih1, ih2, ih3, ih4, ih5, ih6⟩ := ih (c.candidateId :: seen) hseen'
          have hcm : ∃ p ∈ cById, p.2.candidateId = c.candidateId := by
            obtain ⟨p, hp, hpv⟩ := mapGet_some_mem_val hm
            exact ⟨p, hp, by rw [hpv]⟩
          have hids : dataIds (StreamRecord.data (mkAssistedSuggestion c sel) ::
              (streamConsume cById limit rest (c.candidateId :: seen)).1) =
              c.candidateId :: dataIds (streamConsume cById limit rest (c.candidateId :: seen)).1 := by
            simp [dataIds, mkAssistedSuggestion]
          refine ⟨?_, ?_, ?_, ?_, ?_, ?_⟩
          · intro r hr
            rcases List.mem_cons.mp hr with h1 | h2
            · exact ⟨mkAssistedSuggestion c sel, h1⟩
            · exact ih1 r h2
          · rw [hids]
            refine List.nodup_cons.mpr ⟨?_, ih2⟩
            intro hmem
            exact (ih3 c.candidateId hmem) (List.mem_cons_self c.candidateId seen)
          · rw [hids]
            intro id hid
            rcases List.mem_cons.mp hid with h1 | h2
            · rw [h1]
              exact hdup
            · intro hs
              exact (ih3 id h2) (List.mem_cons_of_mem c.candidateId hs)
          · rw [hids]
            intro id hid
            rcases List.mem_cons.mp hid with h1 | h2
            · rw [h1]
              exact hcm
            · exact ih4 id h2
          · rw [hids]
            simp only [List.length_cons]
            simp only [List.length_cons] at ih5
            omega
          · rw [hids]
            intro hb
            have := ih6 hb
            simp only [List.length_cons] at this ⊢
            omega

lemma dataIds_append (l1 l2 : List StreamRecord) :
    dataIds (l1 ++ l2) = dataIds l1 ++ dataIds l2 := by
  unfold dataIds
  exact List.filterMap_append l1 l2 _

lemma streamRun_spec (cById : List (String × Candidate)) (limit : ℕ) (elems : List Selection)
    (err : Option String) (hlim : 1 ≤ limit) :
    (∀ id ∈ dataIds (streamRun cById limit elems err).1, ∃ p ∈ cById, p.2.candidateId = id) ∧
    (dataIds (streamRun cById limit elems err).1).Nodup ∧
    (dataIds (streamRun cById limit elems err).1).length ≤ limit ∧
    (streamRun cById limit elems err).2 = true ∧
    (err = none → ∀ r ∈ (streamRun cById limit elems err).1, ∃ s, r = StreamRecord.data s) ∧
    (∀ msg, err = some msg →
      (∃ pre, (streamRun cById limit elems err).1 = pre ++ [StreamRecord.fail msg] ∧
        ∀ r ∈ pre, ∃ s, r = StreamRecord.data s) ∨
      ((dataIds (streamRun cById limit elems err).1).length = limit ∧
        ∀ r ∈ (streamRun cById limit elems err).1, ∃ s, r = StreamRecord.data s)) := by
  have hempty : ([] : List String).length < limit := by
    simp only [List.length_nil]
    omega
  obtain ⟨hall, hnodup, _, hvals, hlen, hbroke⟩ := streamConsume_spec cById limit elems [] hempty
  rcases hc : streamConsume cById limit elems [] with ⟨recs, broke⟩
  rw [hc] at hall hnodup hvals hlen hbroke
  simp only [List.length_nil, Nat.zero_add] at hlen hbroke
  rcases herr : err with _ | msg
  · have hrun : streamRun cById limit elems none = (recs, true) := by
      unfold streamRun
      rw [hc]
    rw [hrun]
    exact ⟨hvals, hnodup, hlen, rfl, fun _ => hall, fun msg h => Option.noConfusion h⟩
  · rcases broke with _ | _
    · have hrun : streamRun cById limit elems (some msg) =
          (recs ++ [StreamRecord.fail msg], true) := by
        unfold streamRun
        rw [hc]
      rw [hrun]
      have hids : dataIds (recs ++ [StreamRecord.fail msg]) = dataIds recs := by
        rw [dataIds_append]
        simp [dataIds]
      refine ⟨?_, ?_, ?_, rfl, ?_, ?_⟩
      · rw [hids]
        exact hvals
      · rw [hids]
        exact hnodup
      · rw [hids]
        exact hlen
      · intro h
        exact Option.noConfusion h
      · intro msg' h
        have hmsg : msg = msg' := Option.some.inj h
        subst hmsg
        exact Or.inl ⟨recs, rfl, hall⟩
    · have hrun : streamRun cById limit elems (some msg) = (recs, true) := by
        unfold streamRun
        rw [hc]
      rw [hrun]
      refine ⟨hvals, hnodup, hlen, rfl, ?_, ?_⟩
      · intro h
        exact Option.noConfusion h
      · intro msg' _
        exact Or.inr ⟨hbroke rfl, hall⟩

/-- Claim C6: a streaming run emits no duplicate candidate ids, at most `limit`
candidate records, always closes the stream, emits only data records on a clean
run, and on a mid-stream error either appends exactly one final error record or
had already stopped at the limit (so the error is never observed). -/
theorem stream_delivery_contract (cById : List (String × Candidate)) (limit : ℕ)
    (elems : List Selection) (err : Option String) (hlim : 1 ≤ limit) :
    (dataIds (streamRun cById limit elems err).1).Nodup ∧
    (dataIds (streamRun cById limit elems err).1).length ≤ limit ∧
    (streamRun cById limit elems err).2 = true ∧
    (err = none → ∀ r ∈ (streamRun cById limit elems err).1, ∃ s, r = StreamRecord.data s) ∧
    (∀ msg, err = some msg →
      (∃ pre, (streamRun cById limit elems err).1 = pre ++ [StreamRecord.fail msg] ∧
        ∀ r ∈ pre, ∃ s, r = StreamRecord.data s) ∨
      ((dataIds (streamRun cById limit elems err).1).length = limit ∧
        ∀ r ∈ (streamRun cById limit elems err).1, ∃ s, r = StreamRecord.data s)) := by
  obtain ⟨_, h2, h3, h4, h5, h6⟩ := streamRun_spec cById limit elems err hlim
  exact ⟨h2, h3, h4, h5, h6⟩

/-- Witness for C6 at a concrete run with an error after two yielded elements. -/
theorem stream_delivery_contract_witness :
    (dataIds (streamRun [] 3 [⟨"x", "w"⟩] (some "boom")).1).Nodup ∧
    (dataIds (streamRun [] 3 [⟨"x", "w"⟩] (some "boom")).1).length ≤ 3 ∧
    (streamRun [] 3 [⟨"x", "w"⟩] (some "boom")).2 = true ∧
    (some "boom" = none →
      ∀ r ∈ (streamRun [] 3 [⟨"x", "w"⟩] (some "boom")).1, ∃ s, r = StreamRecord.data s) ∧
    (∀ msg, (some "boom" : Option String) = some msg →
      (∃ pre, (streamRun [] 3 [⟨"x", "w"⟩] (some "boom")).1 =
          pre ++ [StreamRecord.fail msg] ∧
        ∀ r ∈ pre, ∃ s, r = StreamRecord.data s) ∨
      ((dataIds (streamRun [] 3 [⟨"x", "w"⟩] (some "boom")).1).length = 3 ∧
        ∀ r ∈ (streamRun [] 3 [⟨"x", "w"⟩] (some "boom")).1, ∃ s, r = StreamRecord.data s)) :=
  stream_delivery_contract [] 3 [⟨"x", "w"⟩] (some "boom") (by decide)

lemma collectSelections_vals (cById : List (String × Candidate)) :
    ∀ (l : List Selection) (seen : List String),
      ∀ s ∈ collectSelections cById l seen, ∃ p ∈ cById, p.2.candidateId = s.candidateId := by
  intro l
  induction l with
  | nil =>
    intro seen s hs
    exact absurd hs (List.not_mem_nil s)
  | cons sel rest ih =>
    intro seen s hs
    rcases hm : mapGet cById sel.candidateId with _ | c
    · have hred : collectSelections cById (sel :: rest) seen =
          collectSelections cById rest seen := by
        show (match mapGet cById sel.candidateId with
          | none => collectSelections cById rest seen
          | some c =>
            if c.candidateId ∈ seen then collectSelections cById rest seen
            else mkAssistedSuggestion c sel ::
              collectSelections cById rest (c.candidateId :: seen)) =
          collectSelections cById rest seen
        rw [hm]
      rw [hred] at hs
      exact ih seen s hs
    · have hred : collectSelections cById (sel :: rest) seen =
          (if c.candidateId ∈ seen then collectSelections cById rest seen
           else mkAssistedSuggestion c sel ::
             collectSelections cById rest (c.candidateId :: seen)) := by
        show (match mapGet cById sel.candidateId with
          | none => collectSelections cById rest seen
          | some c =>
            if c.candidateId ∈ seen then collectSelections cById rest seen
            else mkAssistedSuggestion c sel ::
              collectSelections cById rest (c.candidateId :: seen)) = _
        rw [hm]
      rw [hred] at hs
      by_cases hdup : c.candidateId ∈ seen
      · rw [if_pos hdup] at hs
        exact ih seen s hs
      · rw [if_neg hdup] at hs
        rcases List.mem_cons.mp hs with h1 | h2
        · obtain ⟨p, hp, hpv⟩ := mapGet_some_mem_val hm
          exact ⟨p, hp, by rw [hpv, h1]; rfl⟩
        · exact ih (c.candidateId :: seen) s h2

lemma mkById_val_id {candidates : List Candidate} {p : String × Candidate}
    (hp : p ∈ mkById candidates) : p.2 ∈ candidates := by
  unfold mkById at hp
  obtain ⟨c, hc, hcp⟩ := List.mem_map.mp hp
  rw [← hcp]
  exact hc

lemma nonStreaming_ids (candidates : List Candidate) (output : List Selection) (limit : ℕ) :
    ∀ s ∈ nonStreamingSuggestions candidates output limit,
      s.candidateId ∈ candidates.map Candidate.candidateId := by
  intro s hs
  unfold nonStreamingSuggestions at hs
  by_cases hempty : (assistedSuggestions (mkById candidates) output limit).length = 0
  · rw [if_pos hempty] at hs
    unfold fallbackSuggestions at hs
    obtain ⟨c, hc, hcs⟩ := List.mem_map.mp hs
    have hc1 : c ∈ sortByDetour candidates := List.mem_of_mem_take hc
    have hc2 : c ∈ candidates := by
      unfold sortByDetour at hc1
      exact List.mem_mergeSort.mp hc1
    rw [← hcs]
    exact List.mem_map_of_mem Candidate.candidateId hc2
  · rw [if_neg hempty] at hs
    unfold assistedSuggestions at hs
    have hs' := List.mem_of_mem_take hs
    obtain ⟨p, hp, hpv⟩ := collectSelections_vals (mkById candidates) output [] s hs'
    have hpc := mkById_val_id hp
    rw [← hpv]
    exact List.mem_map_of_mem Candidate.candidateId hpc

lemma nonStreaming_len (candidates : List Candidate) (output : List Selection) (limit : ℕ) :
    (nonStreamingSuggestions candidates output limit).length ≤ limit := by
  unfold nonStreamingSuggestions
  by_cases hempty : (assistedSuggestions (mkById candidates) output limit).length = 0
  · rw [if_pos hempty]
    unfold fallbackSuggestions
    rw [List.length_map]
    exact List.length_take_le limit _
  · rw [if_neg hempty]
    unfold assistedSuggestions
    exact List.length_take_le limit _

/-- Claim C2: in assisted mode, every returned candidate id — non-streaming or
streaming — comes from the submitted candidate set (ids not in the set are
discarded and never appear), and at most `limit` selections are returned in
either delivery mode. -/
theorem assisted_mode_safety (candidates : List Candidate) (output : List Selection)
    (limit : ℕ) (elems : List Selection) (err : Option String) (hlim : 1 ≤ limit) :
    (∀ s ∈ nonStreamingSuggestions candidates output limit,
      s.candidateId ∈ candidates.map Candidate.candidateId) ∧
    (nonStreamingSuggestions candidates output limit).length ≤ limit ∧
    (∀ id ∈ dataIds (streamRun (mkById candidates) limit elems err).1,
      id ∈ candidates.map Candidate.candidateId) ∧
    (dataIds (streamRun (mkById candidates) limit elems err).1).length ≤ limit ∧
    (∀ sel ∈ output, sel.candidateId ∉ candidates.map Candidate.candidateId →
      ∀ s ∈ nonStreamingSuggestions candidates output limit,
        s.candidateId ≠ sel.candidateId) ∧
    (∀ sel ∈ elems, sel.candidateId ∉ candidates.map Candidate.candidateId →
      ∀ id ∈ dataIds (streamRun (mkById candidates) limit elems err).1,
        id ≠ sel.candidateId) := by
  obtain ⟨h1, _, h3, _, _, _⟩ := streamRun_spec (mkById candidates) limit elems err hlim
  have hstream : ∀ id ∈ dataIds (streamRun (mkById candidates) limit elems err).1,
      id ∈ candidates.map Candidate.candidateId := by
    intro id hid
    obtain ⟨p, hp, hpv⟩ := h1 id hid
    have hpc := mkById_val_id hp
    rw [← hpv]
    exact List.mem_map_of_mem Candidate.candidateId hpc
  refine ⟨nonStreaming_ids candidates output limit, nonStreaming_len candidates output limit,
    hstream, h3, ?_, ?_⟩
  · intro sel _ hnot s hs heq
    exact hnot (heq ▸ nonStreaming_ids candidates output limit s hs)
  · intro sel _ hnot id hid heq
    exact hnot (heq ▸ hstream id hid)

/-- Witness for C2 at a concrete candidate set and ranked output containing an
unknown id. -/
theorem assisted_mode_safety_witness :
    (∀ s ∈ nonStreamingSuggestions [mergeExamplePrev] [⟨"zzz", "w"⟩] 3,
      s.candidateId ∈ [mergeExamplePrev].map Candidate.candidateId) ∧
    (nonStreamingSuggestions [mergeExamplePrev] [⟨"zzz", "w"⟩] 3).length ≤ 3 ∧
    (∀ id ∈ dataIds (streamRun (mkById [mergeExamplePrev]) 3 [⟨"zzz", "w"⟩] none).1,
      id ∈ [mergeExamplePrev].map Candidate.candidateId) ∧
    (dataIds (streamRun (mkById [mergeExamplePrev]) 3 [⟨"zzz", "w"⟩] none).1).length ≤ 3 ∧
    (∀ sel ∈ ([⟨"zzz", "w"⟩] : List Selection),
      sel.candidateId ∉ [mergeExamplePrev].map Candidate.candidateId →
      ∀ s ∈ nonStreamingSuggestions [mergeExamplePrev] [⟨"zzz", "w"⟩] 3,
        s.candidateId ≠ sel.candidateId) ∧
    (∀ sel ∈ ([⟨"zzz", "w"⟩] : List Selection),
      sel.candidateId ∉ [mergeExamplePrev].map Candidate.candidateId →
      ∀ id ∈ dataIds (streamRun (mkById [mergeExamplePrev]) 3 [⟨"zzz", "w"⟩] none).1,
        id ≠ sel.candidateId) :=
  assisted_mode_safety [mergeExamplePrev] [⟨"zzz", "w"⟩] 3 [⟨"zzz", "w"⟩] none (by decide)

/-- Counterexample for claim C7: in streaming mode, when the ranked stream
yields zero usable selections and a valid candidate exists, the stream closes
with no records at all — no deterministic fallback is applied in this delivery
mode. -/
theorem stream_no_fallback_counterexample :
    streamRun (mkById [mergeExamplePrev]) 3 [⟨"zzz", "w"⟩] none = ([], true) ∧
    ([mergeExamplePrev] : List Candidate) ≠ [] := by
  constructor
  · rfl
  · intro h
    exact List.noConfusion h

/-- Claim C7 (amended): in the non-streaming delivery mode, when the assisted
pass yields zero usable selections and at least one valid candidate exists, the
handler falls back to the deterministic ascending-detour sort truncated to the
limit and returns a non-empty result.  (The streaming mode has no such
fallback.) -/
theorem assisted_empty_fallback (candidates : List Candidate) (output : List Selection)
    (limit : ℕ) (hne : candidates ≠ []) (hlim : 1 ≤ limit)
    (hempty : assistedSuggestions (mkById candidates) output limit = []) :
    nonStreamingSuggestions candidates output limit = fallbackSuggestions candidates limit ∧
    nonStreamingSuggestions candidates output limit ≠ [] := by
  have heq : nonStreamingSuggestions candidates output limit =
      fallbackSuggestions candidates limit := by
    unfold nonStreamingSuggestions
    rw [if_pos (by rw [hempty]; rfl)]
  refine ⟨heq, ?_⟩
  rw [heq]
  unfold fallbackSuggestions
  intro hnil
  have hlen := congrArg List.length hnil
  rw [List.length_map, List.length_take] at hlen
  have hcl : 0 < candidates.length := List.length_pos.mpr hne
  have hsl : (sortByDetour candidates).length = candidates.length := by
    unfold sortByDetour
    exact List.length_mergeSort candidates
  rw [hsl] at hlen
  simp only [List.length_nil] at hlen
  omega

/-- Witness for C7 (amended): one valid candidate, ranked output naming only an
unknown id. -/
theorem assisted_empty_fallback_witness :
    nonStreamingSuggestions [mergeExamplePrev] [⟨"zzz", "w"⟩] 6 =
      fallbackSuggestions [mergeExamplePrev] 6 ∧
    nonStreamingSuggestions [mergeExamplePrev] [⟨"zzz", "w"⟩] 6 ≠ [] :=
  assisted_empty_fallback [mergeExamplePrev] [⟨"zzz", "w"⟩] 6
    (by intro h; exact List.noConfusion h) (by decide) rfl

/-! ## The whole Discover pipeline (one invocation), with a provider-call log -/

/-- The detour annotation applied to every surviving candidate (route lines
340-355).  The empty-anchors branch is unreachable in the pipeline, which only
runs with at least one anchor. -/
noncomputable def annotate (anchors : List Anchor) (day : Day) (c : Candidate) : Candidate :=
  match bestInsertAfterDestinationIdForCandidate anchors c.location with
  | some (id, d) =>
    { c with
      detourKm := d
      insertAfterDestinationId := id
      insertAfterName :=
        ((day.destinations.find? fun dd => dd.id = id).map Destination.name).getD "a stop" }
  | none => c

/-- `new Set(day.destinations.map(d => d.placeId).filter(Boolean))`. -/
def existingPlaceIdsOfDay (day : Day) : List String :=
  day.destinations.filterMap Destination.placeId

/-- One upstream provider call issued by the pipeline. -/
inductive ProviderCall where
  | nearbySearch (t : String)
  | serpSearch
  | ranking
deriving DecidableEq, Repr

/-- The environment of one Discover invocation: configuration flags and the
responses of the external collaborators. -/
structure DiscoverEnv where
  mapsKeyConfigured : Bool
  fetchNearby : String → Except String (List Candidate)
  serpKeyConfigured : Bool
  serpOutcome : Except String (List (SerpHint × Option Place))
  genAiKeyConfigured : Bool
  rankerOutput : List Selection
  rankerElems : List Selection
  rankerError : Option String

/-- The response of one Discover invocation. -/
inductive DiscoverResponse where
  | failure (e : DiscoverError)
  | suggestions (list : List Suggestion)
  | streamed (records : List StreamRecord)

/-- The POST handler pipeline (route lines 238-564), composed from the stage
functions, also returning the list of upstream provider calls it issued. -/
noncomputable def discover (day : Day) (limit : ℕ) (stream : Bool) (env : DiscoverEnv) :
    DiscoverResponse × List ProviderCall :=
  if day.destinations.length = 0 then
    (DiscoverResponse.failure DiscoverError.noDestinations, [])
  else if (anchorsOfDay day).length = 0 then
    (DiscoverResponse.failure DiscoverError.noMappedDestination, [])
  else if env.mapsKeyConfigured = false then
    (DiscoverResponse.failure DiscoverError.mapsKeyMissing, [])
  else
    let anchors := anchorsOfDay day
    let types := ["tourist_attraction", "restaurant", "cafe"]
    let nearbyCalls := types.map ProviderCall.nearbySearch
    match structuredFanOut (types.map env.fetchNearby) with
    | Except.error e => (DiscoverResponse.failure e, nearbyCalls)
    | Except.ok fetched =>
      let existing := existingPlaceIdsOfDay day
      let byId0 := dedupeStructured fetched existing
      let merged :=
        if env.serpKeyConfigured then
          match env.serpOutcome with
          | Except.error _ => byId0
          | Except.ok resolved =>
            mergeWebCandidates byId0 (fetchSerpApiHiddenGemCandidates anchors existing resolved)
        else byId0
      let serpCalls := if env.serpKeyConfigured then [ProviderCall.serpSearch] else []
      let candidates := ((merged.map Prod.snd).take 80).map (annotate anchors day)
      if candidates.length = 0 then
        (DiscoverResponse.suggestions [], nearbyCalls ++ serpCalls)
      else if env.genAiKeyConfigured = false then
        (DiscoverResponse.suggestions (deterministicSuggestions candidates limit),
          nearbyCalls ++ serpCalls)
      else if stream then
        (DiscoverResponse.streamed
            (streamRun (mkById candidates) limit env.rankerElems env.rankerError).1,
          nearbyCalls ++ serpCalls ++ [ProviderCall.ranking])
      else
        (DiscoverResponse.suggestions
            (nonStreamingSuggestions candidates env.rankerOutput limit),
          nearbyCalls ++ serpCalls ++ [ProviderCall.ranking])

/-- Claim C4: a day with zero stops fails with the "add at least one destination
first" precondition error; a day with stops but no valid coordinate (no anchor)
fails with the "requires at least one mapped destination" error; both failures
issue no upstream provider call and are reported as errors, not as empty
results. -/
theorem discover_preconditions (day : Day) (limit : ℕ) (stream : Bool) (env : DiscoverEnv) :
    (day.destinations = [] →
      discover day limit stream env =
        (DiscoverResponse.failure DiscoverError.noDestinations, []) ∧
      errorMessage DiscoverError.noDestinations = "Add at least one destination first") ∧
    (day.destinations ≠ [] → anchorsOfDay day = [] →
      discover day limit stream env =
        (DiscoverResponse.failure DiscoverError.noMappedDestination, []) ∧
      errorMessage DiscoverError.noMappedDestination =
        "Discover requires at least one mapped destination") ∧
    ((∀ d ∈ day.destinations, hasValidLocation d = false) → anchorsOfDay day = []) := by
  refine ⟨?_, ?_, ?_⟩
  · intro hnil
    refine ⟨?_, rfl⟩
    unfold discover
    rw [if_pos (by rw [hnil]; rfl)]
  · intro hne hanchors
    refine ⟨?_, rfl⟩
    unfold discover
    rw [if_neg (by
        intro hlen
        exact hne (List.eq_nil_of_length_eq_zero hlen)),
      if_pos (by rw [hanchors]; rfl)]
  · intro hall
    unfold anchorsOfDay
    rw [List.filterMap_eq_nil_iff]
    intro d hd
    have hv := hall d hd
    unfold hasValidLocation at hv
    rcases hloc : d.location with _ | loc
    · rfl
    · rw [hloc] at hv
      exact Bool.noConfusion hv

/-- Witness for C4: a day with no stops and a day with a single note (no
coordinate). -/
theorem discover_preconditions_witness :
    (discover ⟨"d1", []⟩ 6 false
        ⟨true, fun _ => Except.ok [], false, Except.ok [], false, [], [], none⟩ =
      (DiscoverResponse.failure DiscoverError.noDestinations, []) ∧
      errorMessage DiscoverError.noDestinations = "Add at least one destination first") ∧
    (discover ⟨"d2", [⟨"s1", "a note", none, none, none, ""⟩]⟩ 6 false
        ⟨true, fun _ => Except.ok [], false, Except.ok [], false, [], [], none⟩ =
      (DiscoverResponse.failure DiscoverError.noMappedDestination, []) ∧
      errorMessage DiscoverError.noMappedDestination =
        "Discover requires at least one mapped destination") :=
  ⟨(discover_preconditions ⟨"d1", []⟩ 6 false
      ⟨true, fun _ => Except.ok [], false, Except.ok [], false, [], [], none⟩).1 rfl,
    (discover_preconditions ⟨"d2", [⟨"s1", "a note", none, none, none, ""⟩]⟩ 6 false
      ⟨true, fun _ => Except.ok [], false, Except.ok [], false, [], [], none⟩).2.1
      (by intro h; exact List.noConfusion h) rfl⟩

end DailyDally
